import Mathlib

/-!
Shallow embedding of the `eztk` terminal dashboard (qkzk/eztk).

The embedding translates the Python sources:
  * `src/model/issue.py`  — the `Issue` entity,
  * `src/model/repo.py`   — the `Repo` entity (a `list` subclass),
  * `src/api/api.py`      — the GitHub client (`fetch_repo`, `close_issue`, …),
  * `src/ui/ui_new.py`    — the live textual UI (`eztk.py` runs `EZView`),
into Lean definitions.  Python exceptions become `Except PyError`;
Python `None` results become `Option`; machine integers are `Int`
(Python integers are unbounded, so no wrap-around modelling is needed).
A widget's mounted `IssueView` children are modelled by their count
(`views`), which is all the selection logic observes of them besides
the presentation flags, which carry no cursor information.
-/

/-- The Python exceptions that the translated code can raise. -/
inductive PyError : Type where
  | typeError : PyError
  | indexError : PyError
  | keyError : PyError
  | valueError : PyError
  | apiError (status : Int) : PyError
deriving DecidableEq

instance {ε α : Type} [DecidableEq ε] [DecidableEq α] :
    DecidableEq (Except ε α) := fun a b =>
  match a, b with
  | .ok x, .ok y =>
    if h : x = y then isTrue (by rw [h])
    else isFalse (fun hc => h (by cases hc; rfl))
  | .error e, .error f =>
    if h : e = f then isTrue (by rw [h])
    else isFalse (fun hc => h (by cases hc; rfl))
  | .ok _, .error _ => isFalse (fun hc => Except.noConfusion hc)
  | .error _, .ok _ => isFalse (fun hc => Except.noConfusion hc)

/-- A JSON value, as produced by `resp.json()` / consumed by `json.dumps`.
Numbers are integers (GitHub issue payload numbers are integral). -/
inductive Json : Type where
  | null : Json
  | str (s : String) : Json
  | num (n : Int) : Json
  | boolean (b : Bool) : Json
  | arr (xs : List Json) : Json
  | obj (kvs : List (String × Json)) : Json

/-- Association-list lookup used by object subscripting. -/
def lookupKey : List (String × Json) → String → Option Json
  | [], _ => none
  | (k, v) :: rest, key => if k == key then some v else lookupKey rest key

/-- Python subscripting `j[key]`: `KeyError` when the key is absent from a
dict, `TypeError` when the value is not a dict (e.g. subscripting a string
with a string key). -/
def Json.getKey : Json → String → Except PyError Json
  | .obj kvs, key =>
    match lookupKey kvs key with
    | some v => .ok v
    | none => .error .keyError
  | _, _ => .error .typeError

/-- Python `value == "..."`: a string compares equal to a string of the
same characters; a value of any other shape compares unequal. -/
def Json.eqStr : Json → String → Bool
  | .str a, b => a == b
  | _, _ => false

/-- Extraction of a string field.  The Python code stores the payload field
untyped; the GitHub payload fields read here (`title`, `body`, `state`,
label `name`) are strings, which this embedding makes explicit. -/
def Json.asStr : Json → Except PyError String
  | .str s => .ok s
  | _ => .error .typeError

/-- Python `int(...)` on a decoded JSON field.  Payload `number`s are JSON
numbers; `int` of anything else in the payload is not exercised and is
modelled as a `ValueError`. -/
def pyInt : Json → Except PyError Int
  | .num n => .ok n
  | _ => .error .valueError

/-! ## Python `" ".join` / `.split(" ")` (used by `Issue.labels_str` and
`Issue.set_labels_from_str`), modelled on character lists. -/

/-- Python `s.split(" ")` with the explicit one-space separator:
`"".split(" ") == [""]`, and empty fields between separators are kept. -/
def pySplitOnSpace : List Char → List (List Char)
  | [] => [[]]
  | c :: rest =>
    match pySplitOnSpace rest with
    | [] => [[]]
    | p :: ps => if c = ' ' then [] :: p :: ps else (c :: p) :: ps

/-- Python `" ".join(pieces)`. -/
def pyJoinSpace : List (List Char) → List Char
  | [] => []
  | [p] => p
  | p :: q :: ps => p ++ ' ' :: pyJoinSpace (q :: ps)

/-- `str.split(" ")` lifted to `String`. -/
def pySplitStrOnSpace (s : String) : List String :=
  (pySplitOnSpace s.data).map String.mk

/-- `" ".join` lifted to `String`. -/
def pyJoinStrSpace (ls : List String) : String :=
  String.mk (pyJoinSpace (ls.map String.data))

/-! ## `src/model/issue.py` -/

/-- The `Issue` class: `(repo, title, body, labels, number, state)`. -/
structure Issue : Type where
  repo : String
  title : String
  body : String
  labels : List String
  number : Int
  state : String
deriving DecidableEq

/-- `Issue.labels_str`: `" ".join(self.labels) if self.labels else ""`. -/
def Issue.labels_str (i : Issue) : String :=
  if i.labels.isEmpty then "" else pyJoinStrSpace i.labels

/-- `Issue.set_labels_from_str`: `self.labels = str_labels.split(" ")`. -/
def Issue.set_labels_from_str (i : Issue) (str_labels : String) : Issue :=
  { i with labels := pySplitStrOnSpace str_labels }

/-- `Issue.parse_labels`: `[json_label["name"] for json_label in json_labels]`.
Iterating a non-list is a `TypeError`; subscripting each element with
`"name"` follows `Json.getKey` (so a plain string element is a `TypeError`
and a dict without `"name"` is a `KeyError`). -/
def Issue.parse_labels (j : Json) : Except PyError (List String) :=
  match j with
  | .arr xs => xs.mapM (fun x => do (← x.getKey "name").asStr)
  | _ => .error .typeError

/-- `Issue.from_json`: reads `title`, `body`, `labels`, `number`, `state`
from the decoded payload, in the source's argument-evaluation order. -/
def Issue.from_json (repo : String) (j : Json) : Except PyError Issue := do
  let title ← (← j.getKey "title").asStr
  let body ← (← j.getKey "body").asStr
  let labels ← Issue.parse_labels (← j.getKey "labels")
  let number ← pyInt (← j.getKey "number")
  let state ← (← j.getKey "state").asStr
  .ok ⟨repo, title, body, labels, number, state⟩

/-- `Issue.to_json`: the dict passed to `json.dumps`, i.e. the decoded form
of the remote write payload.  (`json.dumps`/`json.loads` are the external
json library and are inverse on this fragment, so the embedding works with
the dict itself.)  Note that `labels` is a list of plain strings, and that
no `number` key is emitted. -/
def Issue.to_json (i : Issue) : Json :=
  .obj [("title", .str i.title), ("body", .str i.body),
        ("labels", .arr (i.labels.map Json.str)), ("state", .str i.state)]

/-- The body of the `Issue.close` property getter: it sets `_state` to
`"close"` and, having no return statement, evaluates to Python `None`
(represented by `Option.none : Option Bool`). -/
def Issue.closeProp (i : Issue) : Issue × Option Bool :=
  ({ i with state := "close" }, none)

/-! ## `src/model/repo.py` -/

/-- The `Repo` class.  It subclasses `list` but its `__init__` never calls
`list.__init__`, so the inherited list storage (`listStore`) stays empty
for the whole lifetime of every instance; the issues live in `_issues`. -/
structure Repo : Type where
  name : String
  issues : List Issue
  listStore : List Issue
deriving DecidableEq

/-- `Repo.__init__(name, issues)`: sets `_name` and `_issues`; the
inherited list storage is left empty. -/
def Repo.init (name : String) (issues : List Issue) : Repo :=
  ⟨name, issues, []⟩

/-- CPython `list.__setitem__(l, i, x)` for an integer index: a negative
index is offset by the length, then bounds are checked before any write;
out of range raises `IndexError`. -/
def pyListSetItem {α : Type} (l : List α) (i : Int) (x : α) :
    Except PyError (List α) :=
  let j := if i < 0 then i + l.length else i
  if 0 ≤ j ∧ j < (l.length : Int) then .ok (l.set j.toNat x)
  else .error .indexError

/-- The statement `repo[i] = x`.  `Repo` defines a misspelled
`__settitem__`, which Python never consults for subscript assignment, so
the operation dispatches to the inherited `list.__setitem__`, acting on
the (never populated) inherited list storage. -/
def Repo.setitem (r : Repo) (i : Int) (x : Issue) : Except PyError Repo :=
  (pyListSetItem r.listStore i x).map (fun l => { r with listStore := l })

/-- The issue-parsing comprehension of `Repo.from_json`:
`[Issue.from_json(name, j) for j in json if j["state"] == "open"]`,
evaluated left to right, condition before element, the first exception
aborting the comprehension. -/
def parseOpenIssues (name : String) : List Json → Except PyError (List Issue)
  | [] => .ok []
  | j :: rest =>
    match j.getKey "state" with
    | .error e => .error e
    | .ok st =>
      if st.eqStr "open" then
        match Issue.from_json name j with
        | .error e => .error e
        | .ok i =>
          match parseOpenIssues name rest with
          | .error e => .error e
          | .ok is => .ok (i :: is)
      else
        parseOpenIssues name rest

/-- `Repo.from_json(name, json)`: keeps only payload entries whose
`"state"` is `"open"`, in payload order. -/
def Repo.from_json (name : String) (js : List Json) : Except PyError Repo :=
  (parseOpenIssues name js).map (Repo.init name)

/-! ## `src/api/api.py` -/

/-- The outcome of one HTTP request: either the transport layer raised
`requests.ConnectionError`, or the remote answered with a status code and
a decoded body. -/
inductive FetchOutcome : Type where
  | connError : FetchOutcome
  | response (status : Int) (payload : List Json) : FetchOutcome

/-- `fetch_repo` under the `catch_connection_errors` decorator: a
transport failure becomes `None`; a 200 response is parsed by
`Repo.from_json` (whose exceptions propagate — the decorator catches only
`requests.ConnectionError`); any other status raises `ApiError`, which the
decorator does not catch either. -/
def fetch_repo (repo : String) (o : FetchOutcome) :
    Except PyError (Option Repo) :=
  match o with
  | .connError => .ok none
  | .response status payload =>
    if status = 200 then (Repo.from_json repo payload).map some
    else .error (.apiError status)

/-- Calling a Python value with `()`: `None` (the only value reaching the
call site below) is not callable, so the call raises `TypeError`. -/
def callNone (v : Option Bool) : Except PyError Bool :=
  match v with
  | some b => .ok b
  | none => .error .typeError

/-- `close_issue(repo_name, issue)`.  The body executes `issue.close()`:
`issue.close` evaluates the `close` property getter (mutating the state to
`"close"` and yielding `None`), and the trailing `()` then calls `None`.
Control therefore never reaches `update_issue`, whose outcome `o` is
unused; the mutated issue and the raised exception are returned. -/
def close_issue (repo_name : String) (o : FetchOutcome) (i : Issue) :
    Issue × Except PyError Bool :=
  let (i', ret) := i.closeProp
  let _ := repo_name
  let _ := o
  (i', callNone ret)

/-! ## `src/ui/ui_new.py` — the selection state machine -/

/-- Index validity for Python sequence subscripting `l[i]` on a sequence
of length `n` (negative indices offset by the length). -/
def pyIndexOk (n : Nat) (i : Int) : Bool :=
  let j := if i < 0 then i + n else i
  decide (0 ≤ j) && decide (j < (n : Int))

/-- The normalized position of a valid Python index. -/
def pyNormNat (n : Nat) (i : Int) : Nat :=
  (if i < 0 then i + n else i).toNat

/-- Subscripting a sequence of length `n` only for its side effects
(`views[i].select()` / `.unselect()`): raises `IndexError` when out of
range. -/
def checkIndex (n : Nat) (i : Int) : Except PyError Unit :=
  if pyIndexOk n i then .ok () else .error .indexError

/-- Python `l[i]` on a list. -/
def pyGet {α : Type} (l : List α) (i : Int) : Except PyError α :=
  let j := if i < 0 then i + l.length else i
  if 0 ≤ j ∧ j < (l.length : Int) then
    match l.get? j.toNat with
    | some x => .ok x
    | none => .error .indexError
  else .error .indexError

/-- Fetch `l[i]`, transform it, and store the result back at the same
position (the Python code mutates the fetched widget in place). -/
def pyModify {α : Type} (l : List α) (i : Int)
    (f : α → Except PyError α) : Except PyError (List α) :=
  match pyGet l i with
  | .error e => .error e
  | .ok x =>
    match f x with
    | .error e => .error e
    | .ok y => .ok (l.set (pyNormNat l.length i) y)

/-- The state of one `RepoView` widget: its GitHub name, its reactive
`repo` (set to `None` by a failed fetch), the number of mounted
`IssueView` children, the reactive `selected_index`, and the
`selected_repo` CSS class (presentation only). -/
structure RepoViewState : Type where
  name : String
  repo : Option Repo
  views : Nat
  selected_index : Int
  selectedClass : Bool
deriving DecidableEq

/-- `RepoView.select`: adds the class, resets `selected_index` to `0`, and
selects the first issue view when one exists (index `0` is then in range,
so no exception is possible). -/
def RepoViewState.select (rv : RepoViewState) : RepoViewState :=
  { rv with selectedClass := true, selected_index := 0 }

/-- `RepoView.unselect`: unselects every issue view, resets
`selected_index` to `0`, removes the class. -/
def RepoViewState.unselect (rv : RepoViewState) : RepoViewState :=
  { rv with selected_index := 0, selectedClass := false }

/-- The clamp of `RepoView.select_next_issue` after the increment:
`if self.repo is None or self.selected_index >= len(self.repo):
self.selected_index = 0` — `len(self.repo)` is read only when
`self.repo` is not `None` (short-circuit `or`). -/
def nextIndex (repo : Option Repo) (i1 : Int) : Int :=
  match repo with
  | none => 0
  | some r => if i1 ≥ (r.issues.length : Int) then 0 else i1

/-- The clamp of `RepoView.select_prev_issue` after the decrement: the
`None` test comes first, then a negative index is set to
`len(self.repo) - 1` (which is `-1` for an empty repository). -/
def prevIndex (repo : Option Repo) (i1 : Int) : Int :=
  match repo with
  | none => 0
  | some r => if i1 < 0 then (r.issues.length : Int) - 1 else i1

/-- `RepoView.select_next_issue`.  `issues` is the query of mounted
`IssueView`s; when non-empty, the view at the old index is dereferenced
(`unselect()`) and then the view at the new index (`select()`), either of
which can raise `IndexError` (the earlier one wins). -/
def RepoViewState.select_next_issue (rv : RepoViewState) :
    Except PyError RepoViewState :=
  match (if rv.views ≠ 0 then checkIndex rv.views rv.selected_index
         else Except.ok ()),
        (if rv.views ≠ 0 then
           checkIndex rv.views (nextIndex rv.repo (rv.selected_index + 1))
         else Except.ok ()) with
  | .ok _, .ok _ =>
    .ok { rv with selected_index := nextIndex rv.repo (rv.selected_index + 1) }
  | .error e, _ => .error e
  | .ok _, .error e => .error e

/-- `RepoView.select_prev_issue`. -/
def RepoViewState.select_prev_issue (rv : RepoViewState) :
    Except PyError RepoViewState :=
  match (if rv.views ≠ 0 then checkIndex rv.views rv.selected_index
         else Except.ok ()),
        (if rv.views ≠ 0 then
           checkIndex rv.views (prevIndex rv.repo (rv.selected_index - 1))
         else Except.ok ()) with
  | .ok _, .ok _ =>
    .ok { rv with selected_index := prevIndex rv.repo (rv.selected_index - 1) }
  | .error e, _ => .error e
  | .ok _, .error e => .error e

/-- `RepoView.refresh_content`: `self.repo = fetch_repo(self.__name)`;
the mounted issue views are remounted from the fetched repo only when the
fetch did not return `None` — after a transport failure the stale views
stay mounted and only `repo` is overwritten. -/
def RepoViewState.refresh_content (rv : RepoViewState) (o : FetchOutcome) :
    Except PyError RepoViewState :=
  match fetch_repo rv.name o with
  | .error e => .error e
  | .ok none => .ok { rv with repo := none }
  | .ok (some r) => .ok { rv with repo := some r, views := r.issues.length }

/-- The state of the `EZView` app: the mounted `RepoView`s (one per
configured repository, fixed for the process lifetime) and the reactive
`selected_index` of the selected repo view. -/
structure EZViewState : Type where
  repoViews : List RepoViewState
  selected_index : Int
deriving DecidableEq

/-- `EZView.unselect_every_issue_and_repo`. -/
def EZViewState.unselect_every (s : EZViewState) : List RepoViewState :=
  s.repoViews.map RepoViewState.unselect

/-- `EZView.action_next_repo`: unselect everything, increment the index,
wrap past the number of repos to `0`, select the repo view at the new
index. -/
def EZViewState.action_next_repo (s : EZViewState) :
    Except PyError EZViewState :=
  match pyModify s.unselect_every
      (if s.selected_index + 1 ≥ (s.repoViews.length : Int) then 0
       else s.selected_index + 1)
      (fun rv => .ok rv.select) with
  | .error e => .error e
  | .ok rvs' =>
    .ok { s with
          repoViews := rvs'
          selected_index :=
            if s.selected_index + 1 ≥ (s.repoViews.length : Int) then 0
            else s.selected_index + 1 }

/-- `EZView.action_prev_repo`: symmetric, wrapping a negative index to
the last repo. -/
def EZViewState.action_prev_repo (s : EZViewState) :
    Except PyError EZViewState :=
  match pyModify s.unselect_every
      (if s.selected_index - 1 < 0 then (s.repoViews.length : Int) - 1
       else s.selected_index - 1)
      (fun rv => .ok rv.select) with
  | .error e => .error e
  | .ok rvs' =>
    .ok { s with
          repoViews := rvs'
          selected_index :=
            if s.selected_index - 1 < 0 then (s.repoViews.length : Int) - 1
            else s.selected_index - 1 }

/-- `EZView.action_next_issue`: `self.selected_repo_view().select_next_issue()`. -/
def EZViewState.action_next_issue (s : EZViewState) :
    Except PyError EZViewState :=
  match pyModify s.repoViews s.selected_index
      RepoViewState.select_next_issue with
  | .error e => .error e
  | .ok rvs' => .ok { s with repoViews := rvs' }

/-- `EZView.action_prev_issue`. -/
def EZViewState.action_prev_issue (s : EZViewState) :
    Except PyError EZViewState :=
  match pyModify s.repoViews s.selected_index
      RepoViewState.select_prev_issue with
  | .error e => .error e
  | .ok rvs' => .ok { s with repoViews := rvs' }

/-- `EZView.select_issue_by_index(repo_index, issue_index)`: unselect
everything, store `repo_index` into the cursor, fetch the target view,
`select()` it, store `issue_index` into its cursor **without clamping**,
and only then, guarded by `issue_index < len(issue_views)`, dereference
views `0` and `issue_index` for highlighting. -/
def EZViewState.select_issue_by_index (s : EZViewState)
    (repo_index issue_index : Int) : Except PyError EZViewState :=
  match pyGet s.unselect_every repo_index with
  | .error e => .error e
  | .ok rv0 =>
    match (if issue_index < (rv0.views : Int) then
        match checkIndex rv0.views 0, checkIndex rv0.views issue_index with
        | .ok _, .ok _ => Except.ok ()
        | .error e, _ => .error e
        | .ok _, .error e => .error e
      else Except.ok ()) with
    | .error e => .error e
    | .ok _ =>
      .ok { s with
            repoViews := s.unselect_every.set
              (pyNormNat s.unselect_every.length repo_index)
              { rv0.select with selected_index := issue_index },
            selected_index := repo_index }

/-- The loop of `EZView.reload_repos`:
`for repo in self.query(RepoView): repo.refresh_content()`, each view
fetching with its own outcome for this cycle (`oc k` for the `k`-th view);
an uncaught exception aborts the remaining iterations. -/
def reloadAux (oc : Nat → FetchOutcome) (k : Nat) :
    List RepoViewState → Except PyError (List RepoViewState)
  | [] => .ok []
  | rv :: rest =>
    match rv.refresh_content (oc k) with
    | .error e => .error e
    | .ok rv' =>
      match reloadAux oc (k + 1) rest with
      | .error e => .error e
      | .ok rest' => .ok (rv' :: rest')

/-- `EZView.reload_repos`. -/
def EZViewState.reload_repos (s : EZViewState) (oc : Nat → FetchOutcome) :
    Except PyError EZViewState :=
  match reloadAux oc 0 s.repoViews with
  | .error e => .error e
  | .ok rvs' => .ok { s with repoViews := rvs' }

/-- `EZView.select_first`: always selects the **first** repo view
(`self.query(RepoView)[0]`, an `IndexError` when there is none) and does
not touch `self.selected_index`. -/
def EZViewState.select_first (s : EZViewState) : Except PyError EZViewState :=
  match s.repoViews with
  | [] => .error .indexError
  | rv :: rest => .ok { s with repoViews := rv.select :: rest }

/-- `EZView.refresh_content`: reload every repo view, then `select_first`.
This is the whole post-refresh reconciliation. -/
def EZViewState.refresh_content (s : EZViewState) (oc : Nat → FetchOutcome) :
    Except PyError EZViewState :=
  match s.reload_repos oc with
  | .error e => .error e
  | .ok s1 => s1.select_first

/-! ## The cursor invariant (spec §3) -/

/-- The mounted issue views agree with the stored repo (this holds
whenever the last fetch of this view succeeded). -/
def RepoViewState.syncB (rv : RepoViewState) : Bool :=
  match rv.repo with
  | some r => decide (rv.views = r.issues.length)
  | none => true

/-- The spec §3 issue-cursor condition for one repo view:
`0 <= issue_index < len(issues)` when the repo has issues, and
`issue_index == 0` otherwise (also after a failed fetch). -/
def RepoViewState.cursorOKB (rv : RepoViewState) : Bool :=
  match rv.repo with
  | some r =>
    if r.issues.length = 0 then decide (rv.selected_index = 0)
    else decide (0 ≤ rv.selected_index) &&
      decide (rv.selected_index < (r.issues.length : Int))
  | none => decide (rv.selected_index = 0)

/-- Per-view conjunct of the app invariant, positional: every view is in
sync and cursor-valid, and every view other than the selected one has
issue index `0`. -/
def viewsOK (sel : Int) : Nat → List RepoViewState → Bool
  | _, [] => true
  | k, rv :: rest =>
    rv.syncB && rv.cursorOKB &&
      (decide ((k : Int) = sel) || decide (rv.selected_index = 0)) &&
      viewsOK sel (k + 1) rest

/-- The cursor invariant of spec §3, strengthened into an inductive
invariant: the repo index is in range, and every repo view satisfies
`viewsOK`. -/
def EZViewState.invariantB (s : EZViewState) : Bool :=
  decide (0 ≤ s.selected_index) &&
  decide (s.selected_index < (s.repoViews.length : Int)) &&
  viewsOK s.selected_index 0 s.repoViews

/-! ## Concrete states used by counterexamples and witnesses -/

/-- A sample open issue of repository `name`. -/
def sampleIssue (name : String) (n : Int) : Issue :=
  ⟨name, "a", "", [], n, "open"⟩

/-- The GitHub payload entry that decodes to `sampleIssue name n`. -/
def sampleJson (n : Int) : Json :=
  .obj [("title", .str "a"), ("body", .str ""), ("labels", .arr []),
        ("number", .num n), ("state", .str "open")]

/-- A repo view holding an empty repository after a successful fetch. -/
def emptyRepoView : RepoViewState :=
  ⟨"r", some (Repo.init "r" []), 0, 0, true⟩

/-- A one-repository app whose selected repository has zero issues. -/
def c1StateA : EZViewState := ⟨[emptyRepoView], 0⟩

/-- A two-repository app with the second repository selected, holding
three issues with the last one selected. -/
def c1StateB : EZViewState :=
  ⟨[⟨"a", some (Repo.init "a" []), 0, 0, false⟩,
    ⟨"b", some (Repo.init "b" [sampleIssue "b" 1, sampleIssue "b" 2,
                               sampleIssue "b" 3]), 3, 2, true⟩], 1⟩

/-- A refresh cycle in which repository `a` fetches zero issues and
repository `b` fetches exactly one. -/
def c1OutcomesB : Nat → FetchOutcome := fun k =>
  if k = 0 then .response 200 [] else .response 200 [sampleJson 1]

/-- A one-repository app whose repository holds two issues. -/
def c1StateC : EZViewState :=
  ⟨[⟨"c", some (Repo.init "c" [sampleIssue "c" 1, sampleIssue "c" 2]),
     2, 0, true⟩], 0⟩

/-- A two-repository app used by the C1 witness. -/
def c1StateW : EZViewState :=
  ⟨[⟨"a", some (Repo.init "a" [sampleIssue "a" 1, sampleIssue "a" 2]),
     2, 1, true⟩,
    ⟨"b", none, 0, 0, false⟩], 0⟩

/-- Same app state as `c1StateB`, for the C2 counterexample. -/
def c2State : EZViewState :=
  ⟨[⟨"a", some (Repo.init "a" []), 0, 0, false⟩,
    ⟨"b", some (Repo.init "b" [sampleIssue "b" 1, sampleIssue "b" 2,
                               sampleIssue "b" 3]), 3, 2, true⟩], 1⟩

/-- Refresh outcomes shrinking repository `b` to a single issue. -/
def c2Outcomes : Nat → FetchOutcome := fun k =>
  if k = 0 then .response 200 [] else .response 200 [sampleJson 1]

/-- A one-repository app (the spec §8.7 scenario with `r1` first):
three issues, the last one selected. -/
def c2StateW : EZViewState :=
  ⟨[⟨"r1", some (Repo.init "r1" [sampleIssue "r1" 1, sampleIssue "r1" 2,
                                 sampleIssue "r1" 3]), 3, 2, true⟩], 0⟩

/-- A repo view on an empty repository, for the C3 counterexample. -/
def c3EmptyView : RepoViewState :=
  ⟨"r", some (Repo.init "r" []), 0, 0, true⟩

/-- A repo view on a two-issue repository with the second one selected. -/
def c3TwoView : RepoViewState :=
  ⟨"r", some (Repo.init "r" [sampleIssue "r" 1, sampleIssue "r" 2]),
   2, 1, true⟩

/-- The two-repository app of the C5 scenario: `A` holds one fetched
issue (one mounted view), `B` holds none. -/
def c5State : EZViewState :=
  ⟨[⟨"A", some (Repo.init "A" [sampleIssue "A" 9]), 1, 0, true⟩,
    ⟨"B", some (Repo.init "B" []), 0, 0, false⟩], 0⟩

/-- The C5 cycle: `A`'s fetch fails at transport level, `B`'s succeeds
with one open issue. -/
def c5Outcomes : Nat → FetchOutcome := fun k =>
  if k = 0 then .connError else .response 200 [sampleJson 7]

/-- A one-repository app used to show an `ApiError` crashing a cycle. -/
def c6State : EZViewState := ⟨[⟨"r", none, 0, 0, false⟩], 0⟩

/-- An issue with one label, for the C8 counterexample. -/
def c8Issue : Issue := ⟨"eztk", "t", "b", ["bug"], 1, "open"⟩

/-- An issue with no labels, for the C8 witness. -/
def c8IssueNoLabels : Issue := ⟨"eztk", "t", "b", [], 1, "open"⟩

/-- The payload filter condition of `Repo.from_json`, as a predicate:
`j["state"] == "open"` where a missing or non-dict `"state"` (which would
raise during the comprehension) counts as not open. -/
def jsonIsOpen (j : Json) : Bool :=
  match j.getKey "state" with
  | .ok v => v.eqStr "open"
  | .error _ => false

/-- A remote payload mixing open and closed issues, for the C7 witness. -/
def c7Payload : List Json :=
  [sampleJson 1,
   .obj [("title", .str "x"), ("body", .str ""), ("labels", .arr []),
         ("number", .num 5), ("state", .str "closed")],
   sampleJson 2]

/-! ## General lemmas -/

theorem pyIndexOk_of_bounds (n : Nat) (i : Int) (h0 : 0 ≤ i)
    (h1 : i < (n : Int)) : pyIndexOk n i = true := by
  unfold pyIndexOk
  rw [if_neg (by omega)]
  simp only [Bool.and_eq_true, decide_eq_true_eq]
  exact ⟨h0, h1⟩

theorem checkIndex_ok (n : Nat) (i : Int) (h0 : 0 ≤ i)
    (h1 : i < (n : Int)) : checkIndex n i = .ok () := by
  unfold checkIndex
  rw [if_pos (pyIndexOk_of_bounds n i h0 h1)]

theorem pyNormNat_of_nonneg (n : Nat) (i : Int) (h0 : 0 ≤ i) :
    pyNormNat n i = i.toNat := by
  unfold pyNormNat
  rw [if_neg (by omega)]

theorem pyGet_ok {α : Type} (l : List α) (i : Int) (h0 : 0 ≤ i)
    (h1 : i < (l.length : Int)) (hlt : i.toNat < l.length) :
    pyGet l i = .ok (l.get ⟨i.toNat, hlt⟩) := by
  have hj : (if i < 0 then i + (l.length : Int) else i) = i := if_neg (by omega)
  unfold pyGet
  simp only [hj]
  rw [if_pos ⟨h0, h1⟩, List.get?_eq_get hlt]

/-! ## C4 — `close_issue` mutates locally, then crashes instead of
returning a boolean -/

/-- C4: for every repository name, every remote outcome and every issue,
`close_issue` does set the issue's local state (to the string `"close"`)
before anything else, but — because `Issue.close` is a `@property` whose
getter returns `None` — the trailing call raises `TypeError`, so the
remote update is never attempted and no boolean is ever returned. -/
theorem c4_close_issue_behaviour (repo_name : String) (o : FetchOutcome)
    (i : Issue) :
    (close_issue repo_name o i).1 = { i with state := "close" } ∧
    (close_issue repo_name o i).2 = .error .typeError :=
  ⟨rfl, rfl⟩

/-! ## C9 — `repo[i] = x` always raises `IndexError` -/

/-- C9: for every repository constructed through `__init__` (and hence
also through `from_json`, which goes through `__init__`), every integer
index and every issue, subscript assignment dispatches to the inherited
`list.__setitem__` on the never-populated list storage and raises
`IndexError`; the `_issues` sequence of the constructed repository is the
one passed in, and the bounds check precedes any write, so nothing is
mutated. -/
theorem c9_setitem_always_raises (name : String) (issues : List Issue)
    (i : Int) (x : Issue) :
    Repo.setitem (Repo.init name issues) i x = .error .indexError ∧
    (Repo.init name issues).issues = issues ∧
    ∀ js r, Repo.from_json name js = .ok r →
      Repo.setitem r i x = .error .indexError := by
  have hstore : ∀ r : Repo, r.listStore = [] →
      Repo.setitem r i x = .error .indexError := by
    intro r hr
    unfold Repo.setitem pyListSetItem
    rw [hr]
    have : ¬ (0 ≤ (if i < 0 then i + ((List.length ([] : List Issue)) : Int)
        else i) ∧ (if i < 0 then i + ((List.length ([] : List Issue)) : Int)
        else i) < ((List.length ([] : List Issue)) : Int)) := by
      simp only [List.length_nil, Nat.cast_zero]
      omega
    rw [if_neg this]
    rfl
  refine ⟨hstore _ rfl, rfl, ?_⟩
  intro js r hjs
  unfold Repo.from_json at hjs
  cases hp : parseOpenIssues name js with
  | error e => rw [hp] at hjs; exact absurd hjs (by simp [Except.map])
  | ok l =>
    rw [hp] at hjs
    simp only [Except.map] at hjs
    cases hjs
    exact hstore _ rfl

/-- Witness for C9: the theorem applied to a concrete repository built by
`__init__` and to the one decoded by `from_json` from a one-entry payload. -/
theorem c9_witness :
    Repo.setitem (Repo.init "eztk" [sampleIssue "eztk" 1]) 0
      (sampleIssue "eztk" 2) = .error .indexError ∧
    Repo.setitem (Repo.init "eztk" [sampleIssue "eztk" 1]) (-1)
      (sampleIssue "eztk" 2) = .error .indexError ∧
    Repo.setitem (Repo.init "eztk" [sampleIssue "eztk" 1]) 0
      (sampleIssue "eztk" 2) = .error .indexError :=
  ⟨(c9_setitem_always_raises "eztk" [sampleIssue "eztk" 1] 0
      (sampleIssue "eztk" 2)).1,
   (c9_setitem_always_raises "eztk" [sampleIssue "eztk" 1] (-1)
      (sampleIssue "eztk" 2)).1,
   (c9_setitem_always_raises "eztk" [sampleIssue "eztk" 1] 0
      (sampleIssue "eztk" 2)).2.2 [sampleJson 1]
      (Repo.init "eztk" [sampleIssue "eztk" 1]) rfl⟩

/-! ## C5 — a transport failure leaves stale views, not an empty list -/

/-- C5 at its failing input: in one cycle, repository `A`'s fetch raises
`requests.ConnectionError` (absorbed into `None` by the decorator) while
repository `B`'s fetch succeeds with one open issue.  No exception
reaches the refresh coordinator (the result is `ok`) and `B`'s fetched
data is applied intact — but `A`'s stored `repo` becomes `None` while its
one stale mounted issue view stays (`views = 1`): contrary to the claim
(and to `reload_repos`' own docstring), `A`'s issue list does **not**
become an empty sequence. -/
theorem c5_transport_failure_keeps_stale_views :
    c5State.refresh_content c5Outcomes =
      .ok ⟨[⟨"A", none, 1, 0, true⟩,
            ⟨"B", some (Repo.init "B" [sampleIssue "B" 7]), 1, 0, false⟩],
           0⟩ :=
  rfl

/-! ## C6 — `ApiError` is distinguishable but crashes the refresh -/

/-- C6 counterexample: a reachable remote answering 404 makes
`fetch_repo` raise `ApiError` (the decorator catches only connection
errors), and that exception propagates through `reload_repos` and
`refresh_content`: the refresh cycle dies instead of absorbing it. -/
theorem c6_apierror_crashes_refresh :
    fetch_repo "r" (.response 404 []) = .error (.apiError 404) ∧
    c6State.refresh_content (fun _ => .response 404 []) =
      .error (.apiError 404) :=
  ⟨rfl, rfl⟩

/-- C6 as amended: a non-success status yields `ApiError`, which is
distinguishable from a transport failure (the latter yields `None`), but
it is fatal: it propagates out of `fetch_repo` and aborts any refresh
cycle in which it occurs (here shown for the first repo view of the
cycle). -/
theorem c6_apierror_distinct_but_fatal (name : String) (status : Int)
    (payload : List Json) (h : status ≠ 200) :
    fetch_repo name (.response status payload) =
      .error (.apiError status) ∧
    fetch_repo name .connError = .ok none ∧
    ∀ (s : EZViewState) (oc : Nat → FetchOutcome) rv rest,
      s.repoViews = rv :: rest → oc 0 = .response status payload →
      s.refresh_content oc = .error (.apiError status) := by
  refine ⟨?_, rfl, ?_⟩
  · simp only [fetch_repo, if_neg h]
  · intro s oc rv rest hviews hoc
    unfold EZViewState.refresh_content EZViewState.reload_repos
    rw [hviews]
    unfold reloadAux RepoViewState.refresh_content
    rw [hoc]
    simp only [fetch_repo, if_neg h]

/-- Witness for C6: the amended theorem applied at status 404. -/
theorem c6_witness :
    fetch_repo "r" (.response 404 [.str "not found"]) =
      .error (.apiError 404) ∧
    fetch_repo "r" .connError = .ok none ∧
    c6State.refresh_content (fun _ => .response 404 [.str "not found"]) =
      .error (.apiError 404) := by
  have h := c6_apierror_distinct_but_fatal "r" 404 [.str "not found"]
    (by decide)
  exact ⟨h.1, h.2.1, h.2.2 c6State _ _ _ rfl rfl⟩

/-! ## C10 — `labels_str` / `set_labels_from_str` round trip -/

theorem pySplitOnSpace_ne_nil (l : List Char) : pySplitOnSpace l ≠ [] := by
  induction l with
  | nil => simp [pySplitOnSpace]
  | cons c rest ih =>
    unfold pySplitOnSpace
    cases h : pySplitOnSpace rest with
    | nil => simp
    | cons p ps =>
      by_cases hc : c = ' ' <;> simp [hc]

theorem pySplitOnSpace_no_space (l : List Char) (h : ' ' ∉ l) :
    pySplitOnSpace l = [l] := by
  induction l with
  | nil => rfl
  | cons c rest ih =>
    have hc : c ≠ ' ' := fun hc => h (hc ▸ List.mem_cons_self c rest)
    have hr : ' ' ∉ rest := fun hr => h (List.mem_cons_of_mem c hr)
    unfold pySplitOnSpace
    rw [ih hr]
    simp [hc]

theorem pySplitOnSpace_cons (c : Char) (rest : List Char) :
    pySplitOnSpace (c :: rest) =
      match pySplitOnSpace rest with
      | [] => [[]]
      | p :: ps => if c = ' ' then [] :: p :: ps else (c :: p) :: ps :=
  rfl

theorem pySplitOnSpace_append (p t : List Char) (h : ' ' ∉ p) :
    pySplitOnSpace (p ++ ' ' :: t) = p :: pySplitOnSpace t := by
  induction p with
  | nil =>
    rw [List.nil_append, pySplitOnSpace_cons]
    cases ht : pySplitOnSpace t with
    | nil => exact absurd ht (pySplitOnSpace_ne_nil t)
    | cons q qs => simp
  | cons c rest ih =>
    have hc : c ≠ ' ' := fun hc => h (hc ▸ List.mem_cons_self c rest)
    have hr : ' ' ∉ rest := fun hr => h (List.mem_cons_of_mem c hr)
    rw [List.cons_append, pySplitOnSpace_cons, ih hr]
    simp [hc]

theorem pySplit_pyJoin_roundtrip (p : List Char) (ps : List (List Char))
    (hp : ' ' ∉ p) (hps : ∀ q ∈ ps, ' ' ∉ q) :
    pySplitOnSpace (pyJoinSpace (p :: ps)) = p :: ps := by
  induction ps generalizing p with
  | nil =>
    show pySplitOnSpace (pyJoinSpace [p]) = [p]
    unfold pyJoinSpace
    exact pySplitOnSpace_no_space p hp
  | cons q qs ih =>
    have hq : ' ' ∉ q := hps q (List.mem_cons_self q qs)
    have hqs : ∀ x ∈ qs, ' ' ∉ x := fun x hx =>
      hps x (List.mem_cons_of_mem q hx)
    show pySplitOnSpace (p ++ ' ' :: pyJoinSpace (q :: qs)) = p :: q :: qs
    rw [pySplitOnSpace_append _ _ hp, ih q hq hqs]

theorem string_mk_data (s : String) : String.mk s.data = s := rfl

theorem map_mk_map_data (xs : List String) :
    (xs.map String.data).map String.mk = xs := by
  rw [List.map_map]
  refine List.map_id'' ?_ xs
  intro s
  exact string_mk_data s

/-- C10: for every issue whose labels form a non-empty list of non-empty
strings containing no space character, feeding `labels_str` back through
`set_labels_from_str` restores exactly the same labels; while for an
issue with an empty labels list, the same call sets the labels to
`[""]` (Python `"".split(" ") == [""]`), not to the empty list. -/
theorem c10_labels_roundtrip (i : Issue) :
    (i.labels ≠ [] → (∀ l ∈ i.labels, l ≠ "" ∧ ' ' ∉ l.data) →
      (i.set_labels_from_str i.labels_str).labels = i.labels) ∧
    (i.labels = [] →
      (i.set_labels_from_str i.labels_str).labels = [""]) := by
  constructor
  · intro hne hok
    unfold Issue.set_labels_from_str Issue.labels_str
    rw [if_neg (by simpa [List.isEmpty_iff] using hne)]
    unfold pySplitStrOnSpace pyJoinStrSpace
    show (pySplitOnSpace (pyJoinSpace (i.labels.map String.data))).map
        String.mk = i.labels
    cases hl : i.labels with
    | nil => exact absurd hl hne
    | cons l ls =>
      have hpl : ' ' ∉ l.data := ((hok l (hl ▸ List.mem_cons_self l ls)).2)
      have hpls : ∀ q ∈ ls.map String.data, ' ' ∉ q := by
        intro q hq
        obtain ⟨x, hx, rfl⟩ := List.mem_map.mp hq
        exact (hok x (hl ▸ List.mem_cons_of_mem l hx)).2
      rw [List.map_cons,
        pySplit_pyJoin_roundtrip l.data (ls.map String.data) hpl hpls]
      rw [show l.data :: ls.map String.data =
        (l :: ls).map String.data from rfl]
      exact map_mk_map_data (l :: ls)
  · intro hnil
    unfold Issue.set_labels_from_str Issue.labels_str
    rw [if_pos (by simp [hnil])]
    rfl

/-- Witness for C10: the round trip evaluated on an issue labelled
`["good first issue-a", "bug"]`-like space-free labels `["a", "bc"]`, and
the `[""]` outcome on an unlabelled issue. -/
theorem c10_witness :
    (Issue.set_labels_from_str ⟨"r", "t", "b", ["a", "bc"], 1, "open"⟩
      (Issue.labels_str ⟨"r", "t", "b", ["a", "bc"], 1, "open"⟩)).labels =
      ["a", "bc"] ∧
    (Issue.set_labels_from_str ⟨"r", "t", "b", [], 1, "open"⟩
      (Issue.labels_str ⟨"r", "t", "b", [], 1, "open"⟩)).labels = [""] :=
  ⟨(c10_labels_roundtrip ⟨"r", "t", "b", ["a", "bc"], 1, "open"⟩).1
      (by decide) (by decide),
   (c10_labels_roundtrip ⟨"r", "t", "b", [], 1, "open"⟩).2 rfl⟩

/-! ## C3 — next/prev issue navigation -/

theorem int_succ_emod (i n : Int) (h0 : 0 ≤ i) (h1 : i < n) :
    (i + 1) % n = if i + 1 ≥ n then 0 else i + 1 := by
  by_cases h : i + 1 ≥ n
  · rw [if_pos h]
    have : i + 1 = n := by omega
    rw [this, Int.emod_self]
  · rw [if_neg h]
    exact Int.emod_eq_of_lt (by omega) (by omega)

theorem int_pred_emod (i n : Int) (h0 : 0 ≤ i) (h1 : i < n) :
    (i - 1) % n = if i - 1 < 0 then n - 1 else i - 1 := by
  by_cases h : i - 1 < 0
  · rw [if_pos h]
    have hi : i = 0 := by omega
    have : (n - 1) % n = (-1 + n * 1) % n := by ring_nf
    rw [hi]
    rw [show (0 : Int) - 1 = -1 from rfl]
    rw [show (-1 : Int) % n = (-1 + n * 1) % n from
      (Int.add_mul_emod_self_left (a := -1) (b := n) (c := 1)).symm]
    rw [← this]
    exact Int.emod_eq_of_lt (by omega) (by omega)
  · rw [if_neg h]
    exact Int.emod_eq_of_lt (by omega) (by omega)

/-- C3 as amended: on a repository with at least one issue and an
in-range cursor, `select_next_issue` and `select_prev_issue` implement
`(issue_index ± 1) mod issue_count` exactly; on a repository with zero
issues, `select_next_issue` is a genuine no-op, but `select_prev_issue`
is not: it stores `len(repo) - 1 = -1` into the cursor (neither
operation raises). -/
theorem c3_issue_navigation (rv : RepoViewState) (r : Repo)
    (hrepo : rv.repo = some r) (hsync : rv.views = r.issues.length) :
    (0 < r.issues.length → 0 ≤ rv.selected_index →
      rv.selected_index < (r.issues.length : Int) →
      rv.select_next_issue = .ok { rv with selected_index :=
        (rv.selected_index + 1) % (r.issues.length : Int) } ∧
      rv.select_prev_issue = .ok { rv with selected_index :=
        (rv.selected_index - 1) % (r.issues.length : Int) }) ∧
    (r.issues.length = 0 → rv.selected_index = 0 →
      rv.select_next_issue = .ok rv ∧
      rv.select_prev_issue = .ok { rv with selected_index := -1 }) := by
  constructor
  · intro hlen h0 h1
    have hv : rv.views ≠ 0 := by omega
    have hc1 : (if rv.views ≠ 0 then
        checkIndex rv.views rv.selected_index else Except.ok ()) =
        Except.ok () := by
      rw [if_pos hv]
      exact checkIndex_ok _ _ h0 (by omega)
    constructor
    · have hni : nextIndex rv.repo (rv.selected_index + 1) =
          (rv.selected_index + 1) % (r.issues.length : Int) := by
        rw [hrepo]
        unfold nextIndex
        rw [int_succ_emod rv.selected_index (r.issues.length : Int) h0 h1]
      have hm0 : 0 ≤ (rv.selected_index + 1) % (r.issues.length : Int) :=
        Int.emod_nonneg _ (by omega)
      have hm1 : (rv.selected_index + 1) % (r.issues.length : Int) <
          (r.issues.length : Int) := Int.emod_lt_of_pos _ (by omega)
      have hc2 : (if rv.views ≠ 0 then checkIndex rv.views
          (nextIndex rv.repo (rv.selected_index + 1)) else Except.ok ()) =
          Except.ok () := by
        rw [if_pos hv, hni]
        exact checkIndex_ok _ _ hm0 (by omega)
      unfold RepoViewState.select_next_issue
      rw [hc1, hc2, hni]
    · have hni : prevIndex rv.repo (rv.selected_index - 1) =
          (rv.selected_index - 1) % (r.issues.length : Int) := by
        rw [hrepo]
        unfold prevIndex
        rw [int_pred_emod rv.selected_index (r.issues.length : Int) h0 h1]
      have hm0 : 0 ≤ (rv.selected_index - 1) % (r.issues.length : Int) :=
        Int.emod_nonneg _ (by omega)
      have hm1 : (rv.selected_index - 1) % (r.issues.length : Int) <
          (r.issues.length : Int) := Int.emod_lt_of_pos _ (by omega)
      have hc2 : (if rv.views ≠ 0 then checkIndex rv.views
          (prevIndex rv.repo (rv.selected_index - 1)) else Except.ok ()) =
          Except.ok () := by
        rw [if_pos hv, hni]
        exact checkIndex_ok _ _ hm0 (by omega)
      unfold RepoViewState.select_prev_issue
      rw [hc1, hc2, hni]
  · intro hlen hidx
    have hv : ¬ rv.views ≠ 0 := by omega
    have hc1 : (if rv.views ≠ 0 then
        checkIndex rv.views rv.selected_index else Except.ok ()) =
        Except.ok () := if_neg hv
    constructor
    · have hni : nextIndex rv.repo (rv.selected_index + 1) = 0 := by
        rw [hrepo, hidx]
        show (if (0 : Int) + 1 ≥ (r.issues.length : Int) then (0 : Int)
          else 0 + 1) = 0
        rw [if_pos (by omega)]
      have hc2 : (if rv.views ≠ 0 then checkIndex rv.views
          (nextIndex rv.repo (rv.selected_index + 1)) else Except.ok ()) =
          Except.ok () := if_neg hv
      unfold RepoViewState.select_next_issue
      rw [hc1, hc2, hni, ← hidx]
    · have hni : prevIndex rv.repo (rv.selected_index - 1) = -1 := by
        rw [hrepo, hidx]
        show (if (0 : Int) - 1 < 0 then (r.issues.length : Int) - 1
          else 0 - 1) = -1
        rw [if_pos (by omega)]
        omega
      have hc2 : (if rv.views ≠ 0 then checkIndex rv.views
          (prevIndex rv.repo (rv.selected_index - 1)) else Except.ok ()) =
          Except.ok () := if_neg hv
      unfold RepoViewState.select_prev_issue
      rw [hc1, hc2, hni]

/-- C3 counterexample: on a repository with zero issues,
`select_prev_issue` moves the cursor from `0` to `-1`; it is not the
no-op the claim requires. -/
theorem c3_counterexample :
    c3EmptyView.select_prev_issue =
      .ok { c3EmptyView with selected_index := -1 } ∧
    c3EmptyView.select_prev_issue ≠ .ok c3EmptyView ∧
    c3EmptyView.selected_index = 0 :=
  ⟨rfl, by decide, rfl⟩

/-- Witness for C3: the amended theorem applied to a two-issue view with
the second issue selected, and to an empty view. -/
theorem c3_witness :
    (c3TwoView.select_next_issue =
      .ok { c3TwoView with selected_index := 0 } ∧
     c3TwoView.select_prev_issue =
      .ok { c3TwoView with selected_index := 0 }) ∧
    (c3EmptyView.select_next_issue = .ok c3EmptyView ∧
     c3EmptyView.select_prev_issue =
      .ok { c3EmptyView with selected_index := -1 }) := by
  constructor
  · have h := (c3_issue_navigation c3TwoView
      (Repo.init "r" [sampleIssue "r" 1, sampleIssue "r" 2]) rfl rfl).1
      (by decide) (by decide) (by decide)
    exact ⟨by rw [h.1]; rfl, by rw [h.2]; rfl⟩
  · exact (c3_issue_navigation c3EmptyView (Repo.init "r" []) rfl rfl).2
      rfl rfl

/-! ## C7 — a fetched snapshot holds exactly the open issues, in order -/

theorem parseOpenIssues_cons (name : String) (j : Json) (rest : List Json) :
    parseOpenIssues name (j :: rest) =
      match j.getKey "state" with
      | .error e => .error e
      | .ok st =>
        if st.eqStr "open" then
          match Issue.from_json name j with
          | .error e => .error e
          | .ok i =>
            match parseOpenIssues name rest with
            | .error e => .error e
            | .ok is => .ok (i :: is)
        else
          parseOpenIssues name rest :=
  rfl

theorem parseOpenIssues_forall (name : String) (js : List Json)
    (l : List Issue) (h : parseOpenIssues name js = .ok l) :
    List.Forall₂ (fun j i => Issue.from_json name j = .ok i)
      (js.filter jsonIsOpen) l := by
  induction js generalizing l with
  | nil =>
    cases h
    exact List.Forall₂.nil
  | cons j rest ih =>
    rw [parseOpenIssues_cons] at h
    cases hst : j.getKey "state" with
    | error e => simp only [hst] at h; exact Except.noConfusion h
    | ok st =>
      simp only [hst] at h
      by_cases hopen : st.eqStr "open" = true
      · rw [if_pos hopen] at h
        cases hfj : Issue.from_json name j with
        | error e => simp only [hfj] at h; exact Except.noConfusion h
        | ok i =>
          simp only [hfj] at h
          cases hrest : parseOpenIssues name rest with
          | error e => simp only [hrest] at h; exact Except.noConfusion h
          | ok is =>
            simp only [hrest] at h
            cases h
            have hfil : (j :: rest).filter jsonIsOpen =
                j :: rest.filter jsonIsOpen := by
              rw [List.filter_cons]
              rw [if_pos (by simp [jsonIsOpen, hst, hopen])]
            rw [hfil]
            exact List.Forall₂.cons hfj (ih is hrest)
      · rw [if_neg hopen] at h
        have hfil : (j :: rest).filter jsonIsOpen =
            rest.filter jsonIsOpen := by
          rw [List.filter_cons]
          rw [if_neg (by simp [jsonIsOpen, hst, hopen])]
        rw [hfil]
        exact ih l h

/-- C7: whenever `Repo.from_json` succeeds on a remote payload, the
snapshot's issue list corresponds one-to-one, in payload order, to
exactly those payload entries whose `"state"` is `"open"` (entries with
any other state are excluded by the filter), each decoded by
`Issue.from_json`. -/
theorem c7_only_open_issues (name : String) (js : List Json) (r : Repo)
    (h : Repo.from_json name js = .ok r) :
    r.name = name ∧
    List.Forall₂ (fun j i => Issue.from_json name j = .ok i)
      (js.filter jsonIsOpen) r.issues := by
  unfold Repo.from_json at h
  cases hp : parseOpenIssues name js with
  | error e =>
    rw [hp] at h
    simp only [Except.map] at h
    exact Except.noConfusion h
  | ok l =>
    rw [hp] at h
    simp only [Except.map] at h
    cases h
    exact ⟨rfl, parseOpenIssues_forall name js l hp⟩

/-- Witness for C7: a three-entry payload with one closed entry decodes
to a snapshot holding exactly its two open issues, in order. -/
theorem c7_witness :
    Repo.from_json "r" c7Payload =
      .ok (Repo.init "r" [sampleIssue "r" 1, sampleIssue "r" 2]) ∧
    (Repo.init "r" [sampleIssue "r" 1, sampleIssue "r" 2]).name = "r" ∧
    List.Forall₂ (fun j i => Issue.from_json "r" j = .ok i)
      (c7Payload.filter jsonIsOpen)
      (Repo.init "r" [sampleIssue "r" 1, sampleIssue "r" 2]).issues := by
  have h := c7_only_open_issues "r" c7Payload
    (Repo.init "r" [sampleIssue "r" 1, sampleIssue "r" 2]) rfl
  exact ⟨rfl, h.1, h.2⟩

/-! ## C8 — the write payload does not decode back -/

/-- C8 as amended: the encode/decode pair preserves `title`, `body` and
`state` field-wise, and `labels` only when the label list is empty; but
the full decoding path fails on every encoded payload: the payload lacks
the `"number"` key (`KeyError`), and when at least one label is present
`parse_labels` fails before that (`TypeError`), because labels are
encoded as plain strings while the decoder subscripts each with
`["name"]`. -/
theorem c8_encode_decode (rn : String) (i : Issue) :
    i.to_json.getKey "title" = .ok (.str i.title) ∧
    i.to_json.getKey "body" = .ok (.str i.body) ∧
    i.to_json.getKey "state" = .ok (.str i.state) ∧
    (i.labels = [] →
      Issue.parse_labels (.arr (i.labels.map Json.str)) = .ok [] ∧
      Issue.from_json rn i.to_json = .error .keyError) ∧
    (i.labels ≠ [] →
      Issue.from_json rn i.to_json = .error .typeError) := by
  refine ⟨rfl, rfl, rfl, ?_, ?_⟩
  · intro h
    constructor
    · rw [h]
      rfl
    · unfold Issue.to_json
      rw [h]
      rfl
  · intro hne
    cases hl : i.labels with
    | nil => exact absurd hl hne
    | cons l ls =>
      unfold Issue.to_json
      rw [hl]
      rfl

/-- C8 counterexample: encoding the issue `c8Issue` (one label `"bug"`)
and decoding it back raises `TypeError`; the decoded value is in
particular not the original issue. -/
theorem c8_counterexample :
    Issue.from_json "eztk" c8Issue.to_json = .error .typeError ∧
    Issue.from_json "eztk" c8Issue.to_json ≠ .ok c8Issue :=
  ⟨rfl, by decide⟩

/-- Witness for C8: the amended theorem applied to a labelled and an
unlabelled issue. -/
theorem c8_witness :
    Issue.parse_labels (.arr (c8IssueNoLabels.labels.map Json.str)) =
      .ok [] ∧
    Issue.from_json "eztk" c8IssueNoLabels.to_json = .error .keyError ∧
    Issue.from_json "eztk" c8Issue.to_json = .error .typeError ∧
    c8Issue.to_json.getKey "title" = .ok (.str c8Issue.title) := by
  have h1 := c8_encode_decode "eztk" c8IssueNoLabels
  have h2 := c8_encode_decode "eztk" c8Issue
  exact ⟨(h1.2.2.2.1 rfl).1, (h1.2.2.2.1 rfl).2,
    h2.2.2.2.2 (by decide), h2.1⟩

/-! ## C2 — post-refresh reconciliation -/

theorem reloadAux_cons (oc : Nat → FetchOutcome) (k : Nat)
    (rv : RepoViewState) (rest : List RepoViewState) :
    reloadAux oc k (rv :: rest) =
      match rv.refresh_content (oc k) with
      | .error e => .error e
      | .ok rv' =>
        match reloadAux oc (k + 1) rest with
        | .error e => .error e
        | .ok rest' => .ok (rv' :: rest') :=
  rfl

/-- A successful `RepoView.refresh_content` only touches `repo` and
`views`: the reactive `selected_index` (and the name and CSS class) are
left alone. -/
theorem refresh_content_keeps_index (rv : RepoViewState) (o : FetchOutcome)
    (rv' : RepoViewState) (h : rv.refresh_content o = .ok rv') :
    rv'.selected_index = rv.selected_index ∧ rv'.name = rv.name := by
  unfold RepoViewState.refresh_content at h
  cases hf : fetch_repo rv.name o with
  | error e =>
    simp only [hf] at h
    exact Except.noConfusion h
  | ok v =>
    cases v with
    | none =>
      simp only [hf] at h
      cases h
      exact ⟨rfl, rfl⟩
    | some r =>
      simp only [hf] at h
      cases h
      exact ⟨rfl, rfl⟩

theorem reloadAux_map_index (oc : Nat → FetchOutcome) (k : Nat)
    (l l' : List RepoViewState) (h : reloadAux oc k l = .ok l') :
    l'.map RepoViewState.selected_index =
      l.map RepoViewState.selected_index := by
  induction l generalizing k l' with
  | nil =>
    cases h
    rfl
  | cons rv rest ih =>
    rw [reloadAux_cons] at h
    cases hr : rv.refresh_content (oc k) with
    | error e =>
      simp only [hr] at h
      exact Except.noConfusion h
    | ok rv' =>
      simp only [hr] at h
      cases hrest : reloadAux oc (k + 1) rest with
      | error e =>
        simp only [hrest] at h
        exact Except.noConfusion h
      | ok rest' =>
        simp only [hrest] at h
        cases h
        simp only [List.map_cons]
        rw [(refresh_content_keeps_index rv (oc k) rv' hr).1,
          ih (k + 1) rest' hrest]

/-- C2 as amended: after any successful `refresh_content` cycle the
**first** repository view's `selected_index` is reset to `0` (by
`select_first`), while every other repository view keeps the
`selected_index` it had before the refresh — even if its new issue list
is shorter.  The claimed reset therefore happens exactly when the
selected repository is the first one; the repo cursor itself is
untouched. -/
theorem c2_refresh_resets_first_view_only (s : EZViewState)
    (oc : Nat → FetchOutcome) (s' : EZViewState)
    (h : s.refresh_content oc = .ok s') :
    s'.repoViews.map RepoViewState.selected_index =
      0 :: (s.repoViews.map RepoViewState.selected_index).tail ∧
    s.repoViews ≠ [] ∧
    s'.selected_index = s.selected_index := by
  unfold EZViewState.refresh_content at h
  cases hr : s.reload_repos oc with
  | error e =>
    simp only [hr] at h
    exact Except.noConfusion h
  | ok s1 =>
    simp only [hr] at h
    unfold EZViewState.select_first at h
    unfold EZViewState.reload_repos at hr
    cases hra : reloadAux oc 0 s.repoViews with
    | error e =>
      simp only [hra] at hr
      exact Except.noConfusion hr
    | ok rvs' =>
      simp only [hra] at hr
      cases hr
      have hmap := reloadAux_map_index oc 0 s.repoViews rvs' hra
      cases hv : rvs' with
      | nil =>
        rw [hv] at h
        exact Except.noConfusion h
      | cons rv rest =>
        rw [hv] at h
        cases h
        rw [hv] at hmap
        refine ⟨?_, ?_, rfl⟩
        · simp only [List.map_cons, RepoViewState.select]
          rw [← hmap]
          rfl
        · intro hnil
          rw [hnil] at hmap
          exact List.noConfusion hmap

/-- C2 counterexample: with the second of two repositories selected,
holding 3 issues with issue_index 2, a refresh that returns only 1 issue
for it leaves its issue_index at 2 (out of range), not 0: the
reconciliation resets only the first repository view. -/
theorem c2_counterexample :
    c2State.selected_index = 1 ∧
    c2State.repoViews.map RepoViewState.selected_index = [0, 2] ∧
    c2State.repoViews.map (fun rv => rv.repo.map (fun r =>
      r.issues.length)) = [some 0, some 3] ∧
    (c2State.refresh_content c2Outcomes).map (fun s =>
      (s.selected_index,
       s.repoViews.map RepoViewState.selected_index,
       s.repoViews.map (fun rv => rv.repo.map (fun r =>
         r.issues.length)))) = .ok (1, [0, 2], [some 0, some 1]) :=
  ⟨rfl, rfl, rfl, rfl⟩

/-- Witness for C2: the spec §8.7 scenario with `r1` as the first (and
selected) repository — 3 issues, index 2 selected, refresh returns 1
issue — where the amended theorem yields issue_index 0. -/
theorem c2_witness :
    c2StateW.refresh_content (fun _ => .response 200 [sampleJson 1]) =
      .ok ⟨[⟨"r1", some (Repo.init "r1" [sampleIssue "r1" 1]), 1, 0,
            true⟩], 0⟩ ∧
    ([⟨"r1", some (Repo.init "r1" [sampleIssue "r1" 1]), 1, 0, true⟩]
        : List RepoViewState).map RepoViewState.selected_index =
      0 :: (c2StateW.repoViews.map RepoViewState.selected_index).tail ∧
    c2StateW.repoViews ≠ [] := by
  have h := c2_refresh_resets_first_view_only c2StateW
    (fun _ => .response 200 [sampleJson 1])
    ⟨[⟨"r1", some (Repo.init "r1" [sampleIssue "r1" 1]), 1, 0, true⟩], 0⟩
    rfl
  exact ⟨rfl, h.1, h.2.1⟩

/-! ## C1 — invariant machinery -/

theorem unselect_repo (rv : RepoViewState) : rv.unselect.repo = rv.repo :=
  rfl

theorem unselect_views (rv : RepoViewState) : rv.unselect.views = rv.views :=
  rfl

theorem unselect_index (rv : RepoViewState) :
    rv.unselect.selected_index = 0 :=
  rfl

theorem select_views (rv : RepoViewState) : rv.select.views = rv.views :=
  rfl

theorem select_index (rv : RepoViewState) : rv.select.selected_index = 0 :=
  rfl

theorem syncB_unselect (rv : RepoViewState) :
    rv.unselect.syncB = rv.syncB :=
  rfl

theorem syncB_select (rv : RepoViewState) : rv.select.syncB = rv.syncB :=
  rfl

theorem syncB_update_index (rv : RepoViewState) (j : Int) :
    RepoViewState.syncB { rv with selected_index := j } = rv.syncB :=
  rfl

theorem syncB_elim (rv : RepoViewState) (r : Repo) (hr : rv.repo = some r)
    (hs : rv.syncB = true) : rv.views = r.issues.length := by
  unfold RepoViewState.syncB at hs
  simp only [hr] at hs
  simpa using hs

theorem cursorOKB_of_zero (rv : RepoViewState)
    (h : rv.selected_index = 0) : rv.cursorOKB = true := by
  unfold RepoViewState.cursorOKB
  cases hr : rv.repo with
  | none => simp [h]
  | some r =>
    show (if r.issues.length = 0 then decide (rv.selected_index = 0)
      else decide (0 ≤ rv.selected_index) &&
        decide (rv.selected_index < (r.issues.length : Int))) = true
    by_cases hl : r.issues.length = 0
    · rw [if_pos hl]
      simp [h]
    · rw [if_neg hl]
      simp only [Bool.and_eq_true, decide_eq_true_eq]
      omega

theorem cursorOKB_some (rv : RepoViewState) (r : Repo)
    (hr : rv.repo = some r) (hl : r.issues.length ≠ 0)
    (h0 : 0 ≤ rv.selected_index)
    (h1 : rv.selected_index < (r.issues.length : Int)) :
    rv.cursorOKB = true := by
  unfold RepoViewState.cursorOKB
  simp only [hr]
  rw [if_neg hl]
  simp only [Bool.and_eq_true, decide_eq_true_eq]
  exact ⟨h0, h1⟩

theorem cursorOKB_elim_none (rv : RepoViewState) (hr : rv.repo = none)
    (hc : rv.cursorOKB = true) : rv.selected_index = 0 := by
  unfold RepoViewState.cursorOKB at hc
  simp only [hr] at hc
  simpa using hc

theorem cursorOKB_elim_empty (rv : RepoViewState) (r : Repo)
    (hr : rv.repo = some r) (hl : r.issues.length = 0)
    (hc : rv.cursorOKB = true) : rv.selected_index = 0 := by
  unfold RepoViewState.cursorOKB at hc
  simp only [hr] at hc
  rw [if_pos hl] at hc
  simpa using hc

theorem cursorOKB_elim_some (rv : RepoViewState) (r : Repo)
    (hr : rv.repo = some r) (hl : r.issues.length ≠ 0)
    (hc : rv.cursorOKB = true) :
    0 ≤ rv.selected_index ∧
      rv.selected_index < (r.issues.length : Int) := by
  unfold RepoViewState.cursorOKB at hc
  simp only [hr] at hc
  rw [if_neg hl] at hc
  simpa using hc

theorem viewsOK_cons_eq (sel : Int) (k : Nat) (rv : RepoViewState)
    (rest : List RepoViewState) :
    viewsOK sel k (rv :: rest) =
      (rv.syncB && rv.cursorOKB &&
        (decide ((k : Int) = sel) || decide (rv.selected_index = 0)) &&
        viewsOK sel (k + 1) rest) :=
  rfl

theorem viewsOK_cons (sel : Int) (k : Nat) (rv : RepoViewState)
    (rest : List RepoViewState) :
    viewsOK sel k (rv :: rest) = true ↔
      rv.syncB = true ∧ rv.cursorOKB = true ∧
      ((k : Int) = sel ∨ rv.selected_index = 0) ∧
      viewsOK sel (k + 1) rest = true := by
  rw [viewsOK_cons_eq]
  simp only [Bool.and_eq_true, Bool.or_eq_true, decide_eq_true_eq]
  constructor
  · intro h
    exact ⟨h.1.1.1, h.1.1.2, h.1.2, h.2⟩
  · intro h
    exact ⟨⟨⟨h.1, h.2.1⟩, h.2.2.1⟩, h.2.2.2⟩

theorem viewsOK_mem (sel : Int) (k : Nat) (l : List RepoViewState)
    (h : viewsOK sel k l = true) :
    ∀ rv ∈ l, rv.syncB = true ∧ rv.cursorOKB = true := by
  induction l generalizing k with
  | nil =>
    intro rv hm
    exact absurd hm (List.not_mem_nil rv)
  | cons x rest ih =>
    rw [viewsOK_cons] at h
    intro rv hm
    rcases List.mem_cons.mp hm with heq | hm'
    · subst heq
      exact ⟨h.1, h.2.1⟩
    · exact ih (k + 1) h.2.2.2 rv hm'

theorem viewsOK_of_sync_zero (sel : Int) (k : Nat)
    (l : List RepoViewState)
    (h : ∀ rv ∈ l, rv.syncB = true ∧ rv.selected_index = 0) :
    viewsOK sel k l = true := by
  induction l generalizing k with
  | nil => rfl
  | cons x rest ih =>
    rw [viewsOK_cons]
    have hx := h x (List.mem_cons_self x rest)
    exact ⟨hx.1, cursorOKB_of_zero x hx.2, Or.inr hx.2,
      ih (k + 1) (fun rv hm => h rv (List.mem_cons_of_mem x hm))⟩

theorem viewsOK_get (sel : Int) (k : Nat) (l : List RepoViewState)
    (h : viewsOK sel k l = true) (j : Nat) (rv : RepoViewState)
    (hg : l.get? j = some rv) :
    rv.syncB = true ∧ rv.cursorOKB = true ∧
      ((k + j : Int) = sel ∨ rv.selected_index = 0) := by
  induction l generalizing k j with
  | nil => cases hg
  | cons x rest ih =>
    rw [viewsOK_cons] at h
    cases j with
    | zero =>
      cases hg
      refine ⟨h.1, h.2.1, ?_⟩
      rcases h.2.2.1 with hd | hd
      · left
        omega
      · right
        exact hd
    | succ j' =>
      obtain ⟨hs, hc, hd⟩ := ih (k + 1) h.2.2.2 j' (by simpa using hg)
      refine ⟨hs, hc, ?_⟩
      rcases hd with hd | hd
      · left
        push_cast at hd ⊢
        omega
      · right
        exact hd

theorem viewsOK_set_sel (sel : Int) (k : Nat) (l : List RepoViewState)
    (j : Nat) (rv' : RepoViewState) (h : viewsOK sel k l = true)
    (hj : ((k : Int) + (j : Int)) = sel) (hs : rv'.syncB = true)
    (hc : rv'.cursorOKB = true) :
    viewsOK sel k (l.set j rv') = true := by
  induction l generalizing k j with
  | nil => rfl
  | cons x rest ih =>
    cases j with
    | zero =>
      rw [show (x :: rest).set 0 rv' = rv' :: rest from rfl]
      rw [viewsOK_cons] at h ⊢
      refine ⟨hs, hc, Or.inl (by push_cast at hj ⊢; omega), h.2.2.2⟩
    | succ j' =>
      rw [show (x :: rest).set (j' + 1) rv' = x :: rest.set j' rv'
        from rfl]
      rw [viewsOK_cons] at h ⊢
      refine ⟨h.1, h.2.1, h.2.2.1, ih (k + 1) j' h.2.2.2 ?_⟩
      push_cast at hj ⊢
      omega

theorem pyModify_ok {α : Type} (l : List α) (i : Int)
    (f : α → Except PyError α) (h0 : 0 ≤ i)
    (h1 : i < (l.length : Int)) (hlt : i.toNat < l.length) (y : α)
    (hf : f (l.get ⟨i.toNat, hlt⟩) = .ok y) :
    pyModify l i f = .ok (l.set i.toNat y) := by
  unfold pyModify
  simp only [pyGet_ok l i h0 h1 hlt, hf,
    pyNormNat_of_nonneg l.length i h0]

/-- `select_next_issue` on a view that is in sync with a valid cursor
never raises, only moves the issue cursor, and restores cursor
validity. -/
theorem select_next_issue_spec (rv : RepoViewState)
    (hs : rv.syncB = true) (hc : rv.cursorOKB = true) :
    ∃ j, rv.select_next_issue = .ok { rv with selected_index := j } ∧
      RepoViewState.cursorOKB { rv with selected_index := j } = true := by
  cases hr : rv.repo with
  | none =>
    have hz : rv.selected_index = 0 := cursorOKB_elim_none rv hr hc
    have hni : nextIndex rv.repo (rv.selected_index + 1) = 0 := by
      rw [hr]
      rfl
    have hc1 : (if rv.views ≠ 0 then
        checkIndex rv.views rv.selected_index else Except.ok ()) =
        Except.ok () := by
      by_cases hv : rv.views ≠ 0
      · rw [if_pos hv, hz]
        exact checkIndex_ok _ _ le_rfl (by omega)
      · rw [if_neg hv]
    have hc2 : (if rv.views ≠ 0 then checkIndex rv.views
        (nextIndex rv.repo (rv.selected_index + 1)) else Except.ok ()) =
        Except.ok () := by
      by_cases hv : rv.views ≠ 0
      · rw [if_pos hv, hni]
        exact checkIndex_ok _ _ le_rfl (by omega)
      · rw [if_neg hv]
    refine ⟨0, ?_, cursorOKB_of_zero _ rfl⟩
    unfold RepoViewState.select_next_issue
    rw [hc1, hc2, hni, hr]
  | some r =>
    by_cases hl : r.issues.length = 0
    · have hv : rv.views = 0 := by
        have := syncB_elim rv r hr hs
        omega
      have hz : rv.selected_index = 0 := cursorOKB_elim_empty rv r hr hl hc
      have hni : nextIndex rv.repo (rv.selected_index + 1) = 0 := by
        rw [hr, hz]
        show (if (0 : Int) + 1 ≥ (r.issues.length : Int) then (0 : Int)
          else 0 + 1) = 0
        rw [if_pos (by omega)]
      have hv' : ¬ rv.views ≠ 0 := by omega
      refine ⟨0, ?_, cursorOKB_of_zero _ rfl⟩
      unfold RepoViewState.select_next_issue
      rw [if_neg hv', if_neg hv', hni, hr]
    · have hv : rv.views = r.issues.length := syncB_elim rv r hr hs
      obtain ⟨h0, h1⟩ := cursorOKB_elim_some rv r hr hl hc
      have hjb : 0 ≤ nextIndex rv.repo (rv.selected_index + 1) ∧
          nextIndex rv.repo (rv.selected_index + 1) <
            (r.issues.length : Int) := by
        rw [hr]
        show 0 ≤ (if rv.selected_index + 1 ≥ (r.issues.length : Int)
            then (0 : Int) else rv.selected_index + 1) ∧
          (if rv.selected_index + 1 ≥ (r.issues.length : Int)
            then (0 : Int) else rv.selected_index + 1) <
            (r.issues.length : Int)
        by_cases hgt : rv.selected_index + 1 ≥ (r.issues.length : Int)
        · rw [if_pos hgt]
          omega
        · rw [if_neg hgt]
          omega
      have hv' : rv.views ≠ 0 := by omega
      have hc1 : (if rv.views ≠ 0 then
          checkIndex rv.views rv.selected_index else Except.ok ()) =
          Except.ok () := by
        rw [if_pos hv']
        exact checkIndex_ok _ _ h0 (by omega)
      have hc2 : (if rv.views ≠ 0 then checkIndex rv.views
          (nextIndex rv.repo (rv.selected_index + 1)) else Except.ok ()) =
          Except.ok () := by
        rw [if_pos hv']
        exact checkIndex_ok _ _ hjb.1 (by omega)
      refine ⟨nextIndex rv.repo (rv.selected_index + 1), ?_, ?_⟩
      · unfold RepoViewState.select_next_issue
        rw [hc1, hc2, hr]
      · exact cursorOKB_some _ r rfl hl hjb.1 hjb.2

/-- `select_prev_issue` likewise — but only on a view whose repository is
absent or non-empty (on a non-`None` empty repository it stores `-1`). -/
theorem select_prev_issue_spec (rv : RepoViewState)
    (hs : rv.syncB = true) (hc : rv.cursorOKB = true)
    (hne : ∀ r, rv.repo = some r → r.issues.length ≠ 0) :
    ∃ j, rv.select_prev_issue = .ok { rv with selected_index := j } ∧
      RepoViewState.cursorOKB { rv with selected_index := j } = true := by
  cases hr : rv.repo with
  | none =>
    have hz : rv.selected_index = 0 := cursorOKB_elim_none rv hr hc
    have hni : prevIndex rv.repo (rv.selected_index - 1) = 0 := by
      rw [hr]
      rfl
    have hc1 : (if rv.views ≠ 0 then
        checkIndex rv.views rv.selected_index else Except.ok ()) =
        Except.ok () := by
      by_cases hv : rv.views ≠ 0
      · rw [if_pos hv, hz]
        exact checkIndex_ok _ _ le_rfl (by omega)
      · rw [if_neg hv]
    have hc2 : (if rv.views ≠ 0 then checkIndex rv.views
        (prevIndex rv.repo (rv.selected_index - 1)) else Except.ok ()) =
        Except.ok () := by
      by_cases hv : rv.views ≠ 0
      · rw [if_pos hv, hni]
        exact checkIndex_ok _ _ le_rfl (by omega)
      · rw [if_neg hv]
    refine ⟨0, ?_, cursorOKB_of_zero _ rfl⟩
    unfold RepoViewState.select_prev_issue
    rw [hc1, hc2, hni, hr]
  | some r =>
    have hl : r.issues.length ≠ 0 := hne r hr
    have hv : rv.views = r.issues.length := syncB_elim rv r hr hs
    obtain ⟨h0, h1⟩ := cursorOKB_elim_some rv r hr hl hc
    have hjb : 0 ≤ prevIndex rv.repo (rv.selected_index - 1) ∧
        prevIndex rv.repo (rv.selected_index - 1) <
          (r.issues.length : Int) := by
      rw [hr]
      show 0 ≤ (if rv.selected_index - 1 < 0
          then (r.issues.length : Int) - 1 else rv.selected_index - 1) ∧
        (if rv.selected_index - 1 < 0
          then (r.issues.length : Int) - 1 else rv.selected_index - 1) <
          (r.issues.length : Int)
      by_cases hlt : rv.selected_index - 1 < 0
      · rw [if_pos hlt]
        omega
      · rw [if_neg hlt]
        omega
    have hv' : rv.views ≠ 0 := by omega
    have hc1 : (if rv.views ≠ 0 then
        checkIndex rv.views rv.selected_index else Except.ok ()) =
        Except.ok () := by
      rw [if_pos hv']
      exact checkIndex_ok _ _ h0 (by omega)
    have hc2 : (if rv.views ≠ 0 then checkIndex rv.views
        (prevIndex rv.repo (rv.selected_index - 1)) else Except.ok ()) =
        Except.ok () := by
      rw [if_pos hv']
      exact checkIndex_ok _ _ hjb.1 (by omega)
    refine ⟨prevIndex rv.repo (rv.selected_index - 1), ?_, ?_⟩
    · unfold RepoViewState.select_prev_issue
      rw [hc1, hc2, hr]
    · exact cursorOKB_some _ r rfl hl hjb.1 hjb.2

theorem unselect_every_sync_zero (s : EZViewState)
    (hvOK : viewsOK s.selected_index 0 s.repoViews = true) :
    ∀ rv ∈ s.unselect_every, rv.syncB = true ∧ rv.selected_index = 0 := by
  intro rv hm
  obtain ⟨x, hx, rfl⟩ := List.mem_map.mp hm
  exact ⟨by rw [syncB_unselect]; exact (viewsOK_mem _ _ _ hvOK x hx).1,
    unselect_index x⟩

/-- After `unselect_every_issue_and_repo` followed by `select()` on the
repo view at any valid index, every repo view is in sync and has issue
index `0`, so the positional invariant holds for any selected index. -/
theorem unselect_select_viewsOK (s : EZViewState) (i2 : Int)
    (hvOK : viewsOK s.selected_index 0 s.repoViews = true)
    (h0 : 0 ≤ i2) (h1 : i2 < (s.repoViews.length : Int)) :
    ∃ rvs',
      pyModify s.unselect_every i2 (fun rv => .ok rv.select) = .ok rvs' ∧
      rvs'.length = s.repoViews.length ∧
      ∀ sel' : Int, viewsOK sel' 0 rvs' = true := by
  have hlen : s.unselect_every.length = s.repoViews.length :=
    List.length_map _ _
  have h1' : i2 < (s.unselect_every.length : Int) := by omega
  have hlt : i2.toNat < s.unselect_every.length := by omega
  refine ⟨s.unselect_every.set i2.toNat
    ((s.unselect_every.get ⟨i2.toNat, hlt⟩).select), ?_, ?_, ?_⟩
  · exact pyModify_ok _ _ _ h0 h1' hlt _ rfl
  · rw [List.length_set, hlen]
  · intro sel'
    apply viewsOK_of_sync_zero
    intro rv hm
    rcases List.mem_or_eq_of_mem_set hm with hm' | rfl
    · exact unselect_every_sync_zero s hvOK rv hm'
    · refine ⟨?_, select_index _⟩
      rw [syncB_select]
      exact (unselect_every_sync_zero s hvOK _
        (List.get_mem _ _ _)).1

/-- C1 as amended: from any state satisfying the cursor invariant (with
the reachable-state strengthening that non-selected repository views
have issue index `0`), `action_next_repo`, `action_prev_repo` and
`action_next_issue` always succeed and preserve the invariant;
`action_prev_issue` does so provided the selected repository view is not
holding a non-`None` empty repository; and `select_issue_by_index` does
so provided the repo index is in range and the issue index is `0` or in
range of the target repository.  (The excluded cases really break the
invariant: see the counterexample.) -/
theorem c1_invariant_partial (s : EZViewState)
    (hinv : s.invariantB = true) :
    (∃ s', s.action_next_repo = .ok s' ∧ s'.invariantB = true) ∧
    (∃ s', s.action_prev_repo = .ok s' ∧ s'.invariantB = true) ∧
    (∃ s', s.action_next_issue = .ok s' ∧ s'.invariantB = true) ∧
    (∀ rv, s.repoViews.get? s.selected_index.toNat = some rv →
      (∀ r, rv.repo = some r → r.issues.length ≠ 0) →
      ∃ s', s.action_prev_issue = .ok s' ∧ s'.invariantB = true) ∧
    (∀ ri ii rv, 0 ≤ ri → ri < (s.repoViews.length : Int) →
      s.repoViews.get? ri.toNat = some rv →
      (ii = 0 ∨ ∃ r, rv.repo = some r ∧ 0 ≤ ii ∧
        ii < (r.issues.length : Int)) →
      ∃ s', s.select_issue_by_index ri ii = .ok s' ∧
        s'.invariantB = true) := by
  unfold EZViewState.invariantB at hinv
  simp only [Bool.and_eq_true, decide_eq_true_eq] at hinv
  obtain ⟨⟨h0, h1⟩, hvOK⟩ := hinv
  refine ⟨?_, ?_, ?_, ?_, ?_⟩
  · -- action_next_repo
    have hb : 0 ≤ (if s.selected_index + 1 ≥ (s.repoViews.length : Int)
          then (0 : Int) else s.selected_index + 1) ∧
        (if s.selected_index + 1 ≥ (s.repoViews.length : Int)
          then (0 : Int) else s.selected_index + 1) <
          (s.repoViews.length : Int) := by
      by_cases hgt : s.selected_index + 1 ≥ (s.repoViews.length : Int)
      · rw [if_pos hgt]
        omega
      · rw [if_neg hgt]
        omega
    obtain ⟨rvs', hm, hlen', hok⟩ :=
      unselect_select_viewsOK s _ hvOK hb.1 hb.2
    refine ⟨{ s with
      repoViews := rvs'
      selected_index :=
        if s.selected_index + 1 ≥ (s.repoViews.length : Int) then 0
        else s.selected_index + 1 }, ?_, ?_⟩
    · unfold EZViewState.action_next_repo
      rw [hm]
    · unfold EZViewState.invariantB
      simp only [Bool.and_eq_true, decide_eq_true_eq]
      refine ⟨⟨hb.1, ?_⟩, hok _⟩
      show _ < ((rvs'.length : Nat) : Int)
      rw [hlen']
      exact hb.2
  · -- action_prev_repo
    have hb : 0 ≤ (if s.selected_index - 1 < 0
          then (s.repoViews.length : Int) - 1 else s.selected_index - 1) ∧
        (if s.selected_index - 1 < 0
          then (s.repoViews.length : Int) - 1 else s.selected_index - 1) <
          (s.repoViews.length : Int) := by
      by_cases hlt : s.selected_index - 1 < 0
      · rw [if_pos hlt]
        omega
      · rw [if_neg hlt]
        omega
    obtain ⟨rvs', hm, hlen', hok⟩ :=
      unselect_select_viewsOK s _ hvOK hb.1 hb.2
    refine ⟨{ s with
      repoViews := rvs'
      selected_index :=
        if s.selected_index - 1 < 0 then (s.repoViews.length : Int) - 1
        else s.selected_index - 1 }, ?_, ?_⟩
    · unfold EZViewState.action_prev_repo
      rw [hm]
    · unfold EZViewState.invariantB
      simp only [Bool.and_eq_true, decide_eq_true_eq]
      refine ⟨⟨hb.1, ?_⟩, hok _⟩
      show _ < ((rvs'.length : Nat) : Int)
      rw [hlen']
      exact hb.2
  · -- action_next_issue
    have hlt : s.selected_index.toNat < s.repoViews.length := by omega
    have hget : s.repoViews.get? s.selected_index.toNat =
        some (s.repoViews.get ⟨s.selected_index.toNat, hlt⟩) :=
      List.get?_eq_get hlt
    obtain ⟨hsy, hcu, _⟩ := viewsOK_get _ 0 _ hvOK _ _ hget
    obtain ⟨j, hsel, hcur⟩ := select_next_issue_spec _ hsy hcu
    have hmod := pyModify_ok s.repoViews s.selected_index
      RepoViewState.select_next_issue h0 h1 hlt _ hsel
    refine ⟨{ s with repoViews := (s.repoViews.set s.selected_index.toNat
      { s.repoViews.get ⟨s.selected_index.toNat, hlt⟩ with
        selected_index := j }) }, ?_, ?_⟩
    · unfold EZViewState.action_next_issue
      rw [hmod]
    · unfold EZViewState.invariantB
      simp only [Bool.and_eq_true, decide_eq_true_eq]
      refine ⟨⟨h0, ?_⟩, ?_⟩
      · rw [List.length_set]
        exact h1
      · refine viewsOK_set_sel s.selected_index 0 s.repoViews
          s.selected_index.toNat _ hvOK (by push_cast; omega) ?_ hcur
        rw [syncB_update_index]
        exact hsy
  · -- action_prev_issue, guarded
    intro rv hgv hne
    have hlt : s.selected_index.toNat < s.repoViews.length := by omega
    have hget : s.repoViews.get? s.selected_index.toNat =
        some (s.repoViews.get ⟨s.selected_index.toNat, hlt⟩) :=
      List.get?_eq_get hlt
    have hrv : rv = s.repoViews.get ⟨s.selected_index.toNat, hlt⟩ := by
      rw [hget] at hgv
      exact (Option.some.inj hgv).symm
    subst hrv
    obtain ⟨hsy, hcu, _⟩ := viewsOK_get _ 0 _ hvOK _ _ hget
    obtain ⟨j, hsel, hcur⟩ := select_prev_issue_spec _ hsy hcu hne
    have hmod := pyModify_ok s.repoViews s.selected_index
      RepoViewState.select_prev_issue h0 h1 hlt _ hsel
    refine ⟨{ s with repoViews := (s.repoViews.set s.selected_index.toNat
      { s.repoViews.get ⟨s.selected_index.toNat, hlt⟩ with
        selected_index := j }) }, ?_, ?_⟩
    · unfold EZViewState.action_prev_issue
      rw [hmod]
    · unfold EZViewState.invariantB
      simp only [Bool.and_eq_true, decide_eq_true_eq]
      refine ⟨⟨h0, ?_⟩, ?_⟩
      · rw [List.length_set]
        exact h1
      · refine viewsOK_set_sel s.selected_index 0 s.repoViews
          s.selected_index.toNat _ hvOK (by push_cast; omega) ?_ hcur
        rw [syncB_update_index]
        exact hsy
  · -- select_issue_by_index, guarded
    intro ri ii rv hri0 hri1 hget hii
    have hlen : s.unselect_every.length = s.repoViews.length :=
      List.length_map _ _
    have hri1' : ri < (s.unselect_every.length : Int) := by omega
    have hlt : ri.toNat < s.unselect_every.length := by omega
    have hpy : pyGet s.unselect_every ri =
        .ok (s.unselect_every.get ⟨ri.toNat, hlt⟩) :=
      pyGet_ok _ _ hri0 hri1' hlt
    have hgeteq : s.unselect_every.get ⟨ri.toNat, hlt⟩ = rv.unselect := by
      have h2 : s.unselect_every.get? ri.toNat = some rv.unselect := by
        show (s.repoViews.map RepoViewState.unselect).get? ri.toNat = _
        rw [List.get?_map, hget]
        rfl
      have h3 := List.get?_eq_get hlt
      rw [h2] at h3
      exact (Option.some.inj h3).symm
    have hmem : rv ∈ s.repoViews := List.get?_mem hget
    have hsy := (viewsOK_mem _ _ _ hvOK rv hmem).1
    have hguard : (if ii < (rv.unselect.views : Int) then
        match checkIndex rv.unselect.views 0,
              checkIndex rv.unselect.views ii with
        | .ok _, .ok _ => Except.ok ()
        | .error e, _ => Except.error e
        | .ok _, .error e => Except.error e
      else Except.ok ()) = Except.ok () := by
      rw [unselect_views]
      rcases hii with rfl | ⟨r, hrep, hii0, hii1⟩
      · by_cases hgt : (0 : Int) < (rv.views : Int)
        · rw [if_pos hgt, checkIndex_ok _ _ le_rfl hgt]
        · rw [if_neg hgt]
      · have hvr : rv.views = r.issues.length := syncB_elim rv r hrep hsy
        have hgt : ii < (rv.views : Int) := by omega
        rw [if_pos hgt,
          checkIndex_ok _ _ le_rfl (by omega),
          checkIndex_ok _ _ hii0 hgt]
    have hcur2 : RepoViewState.cursorOKB
        { rv.unselect.select with selected_index := ii } = true := by
      rcases hii with rfl | ⟨r, hrep, hii0, hii1⟩
      · exact cursorOKB_of_zero _ rfl
      · exact cursorOKB_some _ r hrep (by omega) hii0 hii1
    refine ⟨{ s with
      repoViews := (s.unselect_every.set
        (pyNormNat s.unselect_every.length ri)
        { rv.unselect.select with selected_index := ii })
      selected_index := ri }, ?_, ?_⟩
    · unfold EZViewState.select_issue_by_index
      rw [hpy, hgeteq]
      simp only [hguard]
    · unfold EZViewState.invariantB
      simp only [Bool.and_eq_true, decide_eq_true_eq]
      refine ⟨⟨hri0, ?_⟩, ?_⟩
      · rw [List.length_set]
        omega
      · rw [pyNormNat_of_nonneg _ _ hri0]
        refine viewsOK_set_sel ri 0 s.unselect_every ri.toNat _
          ?_ (by push_cast; omega) ?_ hcur2
        · exact viewsOK_of_sync_zero ri 0 s.unselect_every
            (unselect_every_sync_zero s hvOK)
        · rw [syncB_update_index, syncB_select, syncB_unselect]
          exact hsy

/-- C1 counterexample, three concrete violations from invariant-satisfying
states: (a) `selectPrevIssue` on a selected repository with zero issues
stores issue_index `-1`; (b) a refresh with the second repository
selected (3 issues, index 2, shrunk to 1 issue) leaves its issue_index at
`2`, past the end; (c) `selectByIndices(0, 5)` on a two-issue repository
stores issue_index `5` unclamped.  Each readout pairs the stored
issue_index with the §3 cursor condition, which becomes false. -/
theorem c1_counterexample :
    c1StateA.invariantB = true ∧
    (c1StateA.action_prev_issue).map (fun s =>
      (s.selected_index, s.repoViews.map (fun rv =>
        (rv.selected_index, rv.cursorOKB)))) = .ok (0, [(-1, false)]) ∧
    c1StateB.invariantB = true ∧
    (c1StateB.refresh_content c1OutcomesB).map (fun s =>
      (s.selected_index, s.repoViews.map (fun rv =>
        (rv.selected_index, rv.cursorOKB)))) =
      .ok (1, [(0, true), (2, false)]) ∧
    c1StateC.invariantB = true ∧
    (c1StateC.select_issue_by_index 0 5).map (fun s =>
      (s.selected_index, s.repoViews.map (fun rv =>
        (rv.selected_index, rv.cursorOKB)))) = .ok (0, [(5, false)]) :=
  ⟨rfl, rfl, rfl, rfl, rfl, rfl⟩

/-- Witness for C1: the amended theorem applied to a concrete two-repo
state (first repo selected, two issues, index 1). -/
theorem c1_witness :
    (∃ s', c1StateW.action_next_repo = .ok s' ∧ s'.invariantB = true) ∧
    (∃ s', c1StateW.action_prev_repo = .ok s' ∧ s'.invariantB = true) ∧
    (∃ s', c1StateW.action_next_issue = .ok s' ∧ s'.invariantB = true) ∧
    (∃ s', c1StateW.action_prev_issue = .ok s' ∧ s'.invariantB = true) ∧
    (∃ s', c1StateW.select_issue_by_index 1 0 = .ok s' ∧
      s'.invariantB = true) := by
  have h := c1_invariant_partial c1StateW (by decide)
  refine ⟨h.1, h.2.1, h.2.2.1, ?_, ?_⟩
  · refine h.2.2.2.1 ⟨"a", some (Repo.init "a"
      [sampleIssue "a" 1, sampleIssue "a" 2]), 2, 1, true⟩ rfl ?_
    intro r hr
    cases hr
    decide
  · refine h.2.2.2.2 1 0 ⟨"b", none, 0, 0, false⟩ (by decide) (by decide)
      rfl (Or.inl rfl)
